import Mathlib

/-!
Verification of the message-buffering core of the `astrbot_plugin_office_assistant`
plugin, shallowly embedded from `message_buffer.py` and the buffer-completion
callback in `main.py`.

Modelling conventions:
* `asyncio` timer tasks are modelled explicitly: every task ever created is
  recorded in a `TimerTask` list carried by the buffer state, with `cancelled`
  and `done` flags.  `task.cancel()` sets `cancelled` when the task is not done
  (cancelling a finished task is a no-op, mirroring the guard
  `if buf.timer_task and not buf.timer_task.done()`).
* The registry `self._buffers` (a Python dict) is an association list keyed by
  `(platform_id, sender_id, session_id)`; dict lookup / assignment / pop become
  `lookupKey` / `updateKey` (or cons for fresh keys) / `eraseKey`.
* The post-sleep body of `_wait_and_process` (lines 182-207) is the function
  `wait_and_process`; the whole coroutine, including the sleep / CancelledError
  handling, is `fireTimer`, which only reaches the body when the task was not
  cancelled.  Callback invocations are recorded in a `DispatchLog`; callbacks
  return `Except String Unit` so that a raising callback is representable, and
  the `try/except` around each call is the `errorCaught` field (the surrounding
  function always returns normally).
* Float durations carry no arithmetic in the source (only comparison with 0 and
  being handed to `asyncio.sleep`), so they are embedded as rationals.
-/

/-- A `Comp.File` message component; `name` is `Optional` on the Python side. -/
structure FileComp where
  name : Option String
deriving DecidableEq, Repr

/-- A component of `event.message_obj.message`: a file, a plain-text segment, or
any other component type (`At`, `Reply`, ...), which the extractor ignores. -/
inductive MessageComponent where
  | file (f : FileComp)
  | plain (text : String)
  | other
deriving DecidableEq, Repr

/-- The slice of `AstrMessageEvent` that the buffer and the completion callback
read or write.  `buffer_reentry_count` models
`getattr(event, "_buffer_reentry_count", 0)` (so a fresh event carries 0), and
`buffered` models the `_buffered` marker (default `False`).  `result` models
`event._result`. -/
structure Event where
  platform_id : Option String
  sender_id : Option String
  unified_msg_origin : Option String
  message : List MessageComponent
  raw_message : String
  message_str : String
  is_wake : Bool
  is_at_or_wake_command : Bool
  buffered : Bool
  buffer_reentry_count : Nat
  result : Option Unit
deriving DecidableEq, Repr

/-- Conversation key `(platform_id, sender_id, session_id)`. -/
abbrev BKey := String × String × String

/-- Python `x or "unknown"` on an optional string: `None` and `""` are falsy. -/
def orUnknown : Option String → String
  | none => "unknown"
  | some s => if s = "" then "unknown" else s

/-- Embeds `MessageBuffer._get_buffer_key`. -/
def get_buffer_key (e : Event) : BKey :=
  (orUnknown e.platform_id, orUnknown e.sender_id, orUnknown e.unified_msg_origin)

/-- Embeds `MessageBuffer._extract_components`: split a message into its file
components and its non-empty stripped plain-text segments, in arrival order. -/
def extract_components (e : Event) : List FileComp × List String :=
  e.message.foldl
    (fun acc c =>
      match c with
      | .file f => (acc.1 ++ [f], acc.2)
      | .plain t =>
          let text := t.trim
          if text ≠ "" then (acc.1, acc.2 ++ [text]) else acc
      | .other => acc)
    ([], [])

/-- One `asyncio` task created by `asyncio.create_task(self._wait_and_process
(key, wait_time))`, identified by a fresh id. -/
structure TimerTask where
  id : Nat
  key : BKey
  duration : ℚ
  cancelled : Bool
  done : Bool
deriving DecidableEq, Repr

/-- Embeds `BufferedMessage` (the buffer entry dataclass). `timer_task` holds
the id of the current timer task of the entry. -/
structure BufferedMessage where
  event : Event
  files : List FileComp
  texts : List String
  timer_task : Option Nat
  has_file : Bool
  extended : Bool
deriving DecidableEq, Repr

/-- The two configured durations `wait_seconds` / `observe_seconds`. -/
structure MBConfig where
  wait_seconds : ℚ
  observe_seconds : ℚ
deriving DecidableEq, Repr

/-- The registered callbacks (`set_complete_callback` /
`set_passthrough_callback`); either may be unset.  A callback may raise, which
is modelled by returning `Except.error`. -/
structure MBCallbacks where
  on_complete_callback : Option (BufferedMessage → Except String Unit)
  on_passthrough_callback : Option (BufferedMessage → Except String Unit)

/-- The mutable state of a `MessageBuffer`: the keyed registry `self._buffers`,
the set of all timer tasks ever created, and a fresh-id counter. -/
structure MBState where
  buffers : List (BKey × BufferedMessage)
  timers : List TimerTask
  nextId : Nat
deriving DecidableEq, Repr

/-- The state of a freshly constructed `MessageBuffer`. -/
def initState : MBState := { buffers := [], timers := [], nextId := 0 }

/-- Dict lookup on the registry association list. -/
def lookupKey (k : BKey) : List (BKey × BufferedMessage) → Option BufferedMessage
  | [] => none
  | (k', b) :: rest => if k' = k then some b else lookupKey k rest

/-- Dict assignment to an existing key (in-place mutation of the entry). -/
def updateKey (k : BKey) (b : BufferedMessage) :
    List (BKey × BufferedMessage) → List (BKey × BufferedMessage) :=
  List.map (fun p => if p.1 = k then (k, b) else p)

/-- Dict `pop`. -/
def eraseKey (k : BKey) (l : List (BKey × BufferedMessage)) :
    List (BKey × BufferedMessage) :=
  l.filter (fun p => p.1 ≠ k)

/-- Models `task.cancel()` on the task with the given id: marks it cancelled unless it
is already done (the source guards with `not buf.timer_task.done()`). -/
def cancelTimerId (timers : List TimerTask) (tid : Nat) : List TimerTask :=
  timers.map fun t => if t.id == tid && !t.done then { t with cancelled := true } else t

/-- Mark the task with the given id as done (its coroutine body has run). -/
def markDone (timers : List TimerTask) (tid : Nat) : List TimerTask :=
  timers.map fun t => if t.id == tid then { t with done := true } else t

/-- Embeds `MessageBuffer.add_message` (the whole method, lock included: the critical
section is one atomic step here).  Returns the new state and the boolean the
method returns. -/
def add_message (cfg : MBConfig) (s : MBState) (e : Event) : MBState × Bool :=
  -- 如果观察期和等待期都为 0，则禁用缓冲
  if cfg.observe_seconds ≤ 0 ∧ cfg.wait_seconds ≤ 0 then (s, false)
  else
    let ft := extract_components e
    let key := get_buffer_key e
    let has_file := decide (ft.1.length > 0)
    match lookupKey key s.buffers with
    | some buf =>
        -- 已有缓冲：追加文件与文本
        let buf1 := { buf with files := buf.files ++ ft.1, texts := buf.texts ++ ft.2 }
        if has_file && !buf.extended then
          -- 检测到文件且尚未延长：取消旧定时器，重启完整等待定时器
          let timers1 :=
            match buf.timer_task with
            | some tid => cancelTimerId s.timers tid
            | none => s.timers
          let newTimer : TimerTask :=
            { id := s.nextId, key := key, duration := cfg.wait_seconds,
              cancelled := false, done := false }
          let buf2 :=
            { buf1 with has_file := true, extended := true, timer_task := some s.nextId }
          ({ buffers := updateKey key buf2 s.buffers,
             timers := timers1 ++ [newTimer],
             nextId := s.nextId + 1 }, true)
        else
          -- 没有新文件（或已延长）：不改变定时器
          ({ s with buffers := updateKey key buf1 s.buffers }, true)
    | none =>
        -- 没有缓冲，开始新的缓冲
        let buf : BufferedMessage :=
          { event := e, files := ft.1, texts := ft.2,
            timer_task := some s.nextId, has_file := has_file,
            extended := has_file }
        let wait_time := if has_file then cfg.wait_seconds else cfg.observe_seconds
        let newTimer : TimerTask :=
          { id := s.nextId, key := key, duration := wait_time,
            cancelled := false, done := false }
        ({ buffers := (key, buf) :: s.buffers,
           timers := s.timers ++ [newTimer],
           nextId := s.nextId + 1 }, true)

/-- Which callbacks a dispatch invoked, and whether an exception from one was
caught at the dispatch boundary. -/
structure DispatchLog where
  completionCalled : Bool
  passthroughCalled : Bool
  errorCaught : Bool
deriving DecidableEq, Repr

/-- The empty dispatch log: no callback ran. -/
def noDispatch : DispatchLog :=
  { completionCalled := false, passthroughCalled := false, errorCaught := false }

/-- Whether a callback invocation raised. -/
def isError : Except String Unit → Bool
  | .error _ => true
  | .ok _ => false

/-- The post-sleep body of `MessageBuffer._wait_and_process` (lines 182-207):
under the lock, pop the entry if still registered; outside the lock, dispatch
to the completion callback when the entry has a file, else to the passthrough
callback, each call wrapped in `try/except`. -/
def wait_and_process (cbs : MBCallbacks) (s : MBState) (k : BKey) :
    MBState × DispatchLog :=
  match lookupKey k s.buffers with
  | none => (s, noDispatch)
  | some buf =>
      let s' := { s with buffers := eraseKey k s.buffers }
      if buf.has_file then
        match cbs.on_complete_callback with
        | some cb =>
            (s', { completionCalled := true, passthroughCalled := false,
                   errorCaught := isError (cb buf) })
        | none => (s', noDispatch)
      else
        match cbs.on_passthrough_callback with
        | some cb =>
            (s', { completionCalled := false, passthroughCalled := true,
                   errorCaught := isError (cb buf) })
        | none => (s', noDispatch)

/-- The whole `_wait_and_process` coroutine for the timer task with id `tid`:
if the task was cancelled during `asyncio.sleep`, the `CancelledError` handler
returns silently with no side effect; otherwise the task completes its sleep
(becomes done) and runs the body. -/
def fireTimer (cbs : MBCallbacks) (s : MBState) (tid : Nat) :
    MBState × DispatchLog :=
  match s.timers.find? (fun t => t.id == tid) with
  | none => (s, noDispatch)
  | some t =>
      if t.cancelled || t.done then (s, noDispatch)
      else wait_and_process cbs { s with timers := markDone s.timers tid } t.key

/-- Embeds `MessageBuffer.is_buffering`. -/
def is_buffering (s : MBState) (e : Event) : Bool :=
  (lookupKey (get_buffer_key e) s.buffers).isSome

/-- Embeds `MessageBuffer.cancel_buffer`: pop the entry, if present, and cancel its
timer task. -/
def cancel_buffer (s : MBState) (e : Event) : MBState :=
  let key := get_buffer_key e
  match lookupKey key s.buffers with
  | none => s
  | some buf =>
      let timers' :=
        match buf.timer_task with
        | some tid => cancelTimerId s.timers tid
        | none => s.timers
      { s with buffers := eraseKey key s.buffers, timers := timers' }

/-- The characters after the last dot of a name, if any dot occurs. -/
def afterLastDot : List Char → Option (List Char)
  | [] => none
  | c :: rest =>
      match afterLastDot rest with
      | some e => some e
      | none => if c = '.' then some rest else none

/-- The suffix rule of `pathlib` on the final path component: the extension from the
last dot, provided that dot is neither the first nor the last character. -/
def pathSuffixChars (name : List Char) : List Char :=
  match afterLastDot name with
  | none => []
  | some e => if e.length ≠ 0 ∧ e.length + 1 < name.length then '.' :: e else []

/-- Models `Path(p).suffix`. -/
def pathExt (p : String) : String :=
  String.mk (pathSuffixChars ((p.splitOn "/").getLastD "").toList)

/-- Python `str.lower()` (ASCII case folding suffices here). -/
def strLower (s : String) : String := String.map Char.toLower s

/-- Embeds `FileManagerPlugin._on_buffer_complete` from `main.py`: the completion
callback.  Returns the (possibly rewritten) event and whether it was resubmitted
to the event queue of the host (`event_queue.put`).  The reentry guard aborts before
any mutation when `_buffer_reentry_count` has reached 3. -/
def on_buffer_complete (buf : BufferedMessage) : Event × Bool :=
  let event := buf.event
  let files := buf.files
  let texts := buf.texts
  -- 检查重入次数，防止无限循环
  let reentry_count := event.buffer_reentry_count
  if 3 ≤ reentry_count then (event, false)
  else
    -- 构建文件信息列表
    let file_info_list := files.map (fun f =>
      let name :=
        match f.name with
        | some n => if n = "" then "未命名文件" else n
        | none => "未命名文件"
      let sfx := if name ≠ "" then strLower (pathExt name) else ""
      "文件名: " ++ name ++ " (类型: " ++ sfx ++ ")")
    -- 合并用户的文本指令
    let user_instruction := if texts ≠ [] then String.intercalate " " texts else ""
    -- 构建给 LLM 的提示文本
    let prompt_text :=
      if user_instruction ≠ "" then
        "\n[系统通知] 用户上传了 " ++ toString file_info_list.length ++ " 个文件:\n"
          ++ String.intercalate "\n" file_info_list
          ++ "\n\n用户指令: " ++ user_instruction
          ++ "\n\n请使用 `read_file` 工具读取上述文件内容，然后根据用户指令进行处理。"
      else
        "\n[系统通知] 用户上传了 " ++ toString file_info_list.length ++ " 个文件:\n"
          ++ String.intercalate "\n" file_info_list
          ++ "\n\n请立即使用 `read_file` 工具读取上述文件内容。"
          ++ "\n(注意：用户未提供具体指令，请读取文件后询问用户需要什么帮助)"
    -- 重构消息链：Plain 提示在前，保留原始文件组件
    let new_chain := MessageComponent.plain prompt_text :: files.map MessageComponent.file
    let event' :=
      { event with
        message := new_chain
        raw_message := prompt_text
        message_str := prompt_text.trim
        buffered := true
        buffer_reentry_count := reentry_count + 1
        result := none
        is_wake := true
        is_at_or_wake_command := true }
    (event', true)

/-- One trip of an event through the host queue and back into the completion
callback, carrying fixed aggregated files/texts. -/
def recycleOnce (files : List FileComp) (texts : List String) (e : Event) :
    Event × Bool :=
  on_buffer_complete
    { event := e, files := files, texts := texts, timer_task := none,
      has_file := true, extended := true }

/-- How many times the completion callback resubmits the event to the host
queue over `n` consecutive recycling trips. -/
def resubmissions (files : List FileComp) (texts : List String) :
    Nat → Event → Nat
  | 0, _ => 0
  | Nat.succ n, e =>
      let r := recycleOnce files texts e
      (if r.2 then 1 else 0) + resubmissions files texts n r.1

/-- One observable operation of a `MessageBuffer`: an `add_message` call, an
uncancelled timer expiry, or an explicit `cancel_buffer`. -/
inductive MBStep (cfg : MBConfig) (cbs : MBCallbacks) : MBState → MBState → Prop where
  | add (s : MBState) (e : Event) : MBStep cfg cbs s (add_message cfg s e).1
  | fire (s : MBState) (tid : Nat) : MBStep cfg cbs s (fireTimer cbs s tid).1
  | cancel (s : MBState) (e : Event) : MBStep cfg cbs s (cancel_buffer s e)

/-- States reachable from a freshly constructed `MessageBuffer`. -/
def Reachable (cfg : MBConfig) (cbs : MBCallbacks) (s : MBState) : Prop :=
  Relation.ReflTransGen (MBStep cfg cbs) initState s

/-- Deliver a sequence of events to `add_message` in order. -/
def add_all (cfg : MBConfig) (s : MBState) (es : List Event) : MBState :=
  es.foldl (fun s e => (add_message cfg s e).1) s

@[simp] lemma lookupKey_nil (k : BKey) : lookupKey k [] = none := rfl

@[simp] lemma lookupKey_cons (k k' : BKey) (b : BufferedMessage)
    (rest : List (BKey × BufferedMessage)) :
    lookupKey k ((k', b) :: rest) = if k' = k then some b else lookupKey k rest := rfl

@[simp] lemma updateKey_nil (k : BKey) (b : BufferedMessage) :
    updateKey k b [] = [] := rfl

@[simp] lemma updateKey_cons (k k' : BKey) (b c : BufferedMessage)
    (rest : List (BKey × BufferedMessage)) :
    updateKey k b ((k', c) :: rest)
      = (if k' = k then (k, b) else (k', c)) :: updateKey k b rest := rfl

lemma lookupKey_eraseKey (k : BKey) (l : List (BKey × BufferedMessage)) :
    lookupKey k (eraseKey k l) = none := by
  induction l with
  | nil => rfl
  | cons p rest ih =>
      by_cases h : p.1 = k
      · simpa [eraseKey, h] using ih
      · simpa [eraseKey, lookupKey, h] using ih

lemma lookupKey_updateKey {k : BKey} {l : List (BKey × BufferedMessage)}
    {b0 : BufferedMessage} (b : BufferedMessage)
    (h : lookupKey k l = some b0) :
    lookupKey k (updateKey k b l) = some b := by
  induction l with
  | nil => simp at h
  | cons p rest ih =>
      obtain ⟨k', c⟩ := p
      by_cases hk : k' = k
      · subst hk
        simp
      · rw [lookupKey_cons, if_neg hk] at h
        rw [updateKey_cons, if_neg hk, lookupKey_cons, if_neg hk]
        exact ih h

lemma lookupKey_mem {k : BKey} {l : List (BKey × BufferedMessage)}
    {b : BufferedMessage} (h : lookupKey k l = some b) : (k, b) ∈ l := by
  induction l with
  | nil => simp at h
  | cons p rest ih =>
      obtain ⟨k', c⟩ := p
      by_cases hk : k' = k
      · subst hk
        rw [lookupKey_cons, if_pos rfl] at h
        injection h with h
        subst h
        exact List.mem_cons_self _ _
      · rw [lookupKey_cons, if_neg hk] at h
        exact List.mem_cons_of_mem _ (ih h)

lemma mem_updateKey {k : BKey} {b : BufferedMessage}
    {l : List (BKey × BufferedMessage)} {p : BKey × BufferedMessage}
    (h : p ∈ updateKey k b l) : p.2 = b ∨ p ∈ l := by
  rcases List.mem_map.mp h with ⟨q, hq, hpq⟩
  by_cases hk : q.1 = k
  · left
    simp [hk] at hpq
    rw [← hpq]
  · right
    simp [hk] at hpq
    rwa [← hpq]

lemma mem_eraseKey {k : BKey} {l : List (BKey × BufferedMessage)}
    {p : BKey × BufferedMessage} (h : p ∈ eraseKey k l) : p ∈ l :=
  List.mem_of_mem_filter h

lemma find?_append_some {p : TimerTask → Bool} {l1 : List TimerTask}
    {t : TimerTask} (l2 : List TimerTask) (h : l1.find? p = some t) :
    (l1 ++ l2).find? p = some t := by
  rw [List.find?_append, h]
  rfl

lemma find?_cancelTimerId {l : List TimerTask} {tid : Nat} {t : TimerTask}
    (h : l.find? (fun u => u.id == tid) = some t) (hd : t.done = false) :
    (cancelTimerId l tid).find? (fun u => u.id == tid)
      = some { t with cancelled := true } := by
  induction l with
  | nil => simp [List.find?] at h
  | cons x rest ih =>
      by_cases hx : (x.id == tid) = true
      · rw [@List.find?_cons_of_pos TimerTask (fun u => u.id == tid) x rest hx] at h
        injection h with h
        subst h
        have hcond : (x.id == tid && !x.done) = true := by simp [hx, hd]
        simp only [cancelTimerId, List.map_cons, hcond, if_true]
        exact @List.find?_cons_of_pos TimerTask (fun u => u.id == tid) _ _ (by simpa using hx)
      · rw [@List.find?_cons_of_neg TimerTask (fun u => u.id == tid) x rest hx] at h
        have hhead : ((if x.id == tid && !x.done
            then { x with cancelled := true } else x) : TimerTask) = x := by
          simp [hx]
        simp only [cancelTimerId, List.map_cons] at ih ⊢
        rw [hhead, @List.find?_cons_of_neg TimerTask (fun u => u.id == tid) x _ hx]
        exact ih h

lemma add_message_disabled (cfg : MBConfig) (s : MBState) (e : Event)
    (h : cfg.observe_seconds ≤ 0 ∧ cfg.wait_seconds ≤ 0) :
    add_message cfg s e = (s, false) := by
  simp only [add_message, if_pos h]

lemma add_message_new (cfg : MBConfig) (s : MBState) (e : Event)
    (hdis : ¬(cfg.observe_seconds ≤ 0 ∧ cfg.wait_seconds ≤ 0))
    (hb : lookupKey (get_buffer_key e) s.buffers = none) :
    add_message cfg s e =
      ({ buffers := (get_buffer_key e,
           { event := e, files := (extract_components e).1,
             texts := (extract_components e).2, timer_task := some s.nextId,
             has_file := decide ((extract_components e).1.length > 0),
             extended := decide ((extract_components e).1.length > 0) }) :: s.buffers,
         timers := s.timers ++
           [{ id := s.nextId, key := get_buffer_key e,
              duration := if decide ((extract_components e).1.length > 0)
                then cfg.wait_seconds else cfg.observe_seconds,
              cancelled := false, done := false }],
         nextId := s.nextId + 1 }, true) := by
  simp only [add_message, if_neg hdis, hb]

lemma add_message_escalate (cfg : MBConfig) (s : MBState) (e : Event)
    (buf : BufferedMessage)
    (hdis : ¬(cfg.observe_seconds ≤ 0 ∧ cfg.wait_seconds ≤ 0))
    (hb : lookupKey (get_buffer_key e) s.buffers = some buf)
    (hf : (extract_components e).1 ≠ [])
    (hx : buf.extended = false) :
    add_message cfg s e =
      ({ buffers := updateKey (get_buffer_key e)
           { buf with files := buf.files ++ (extract_components e).1,
                      texts := buf.texts ++ (extract_components e).2,
                      has_file := true, extended := true,
                      timer_task := some s.nextId } s.buffers,
         timers := (match buf.timer_task with
                    | some tid => cancelTimerId s.timers tid
                    | none => s.timers) ++
           [{ id := s.nextId, key := get_buffer_key e,
              duration := cfg.wait_seconds, cancelled := false, done := false }],
         nextId := s.nextId + 1 }, true) := by
  have hlen : decide ((extract_components e).1.length > 0) = true := by
    simpa [List.length_pos] using hf
  simp only [add_message, if_neg hdis, hb, hlen, hx]
  simp

lemma add_message_append (cfg : MBConfig) (s : MBState) (e : Event)
    (buf : BufferedMessage)
    (hdis : ¬(cfg.observe_seconds ≤ 0 ∧ cfg.wait_seconds ≤ 0))
    (hb : lookupKey (get_buffer_key e) s.buffers = some buf)
    (hcond : (decide ((extract_components e).1.length > 0) && !buf.extended) = false) :
    add_message cfg s e =
      ({ s with buffers := updateKey (get_buffer_key e)
                  { buf with files := buf.files ++ (extract_components e).1,
                             texts := buf.texts ++ (extract_components e).2 }
                  s.buffers }, true) := by
  simp only [add_message, if_neg hdis, hb, hcond]
  simp

lemma wait_and_process_absent (cbs : MBCallbacks) (s : MBState) (k : BKey)
    (h : lookupKey k s.buffers = none) :
    wait_and_process cbs s k = (s, noDispatch) := by
  simp only [wait_and_process, h]

lemma wait_and_process_pop (cbs : MBCallbacks) (s : MBState) (k : BKey)
    (buf : BufferedMessage) (h : lookupKey k s.buffers = some buf) :
    (wait_and_process cbs s k).1 = { s with buffers := eraseKey k s.buffers } := by
  simp only [wait_and_process, h]
  cases buf.has_file
  · cases cbs.on_passthrough_callback <;> simp
  · cases cbs.on_complete_callback <;> simp

lemma wait_and_process_calls (cbs : MBCallbacks) (s : MBState) (k : BKey)
    (buf : BufferedMessage) (h : lookupKey k s.buffers = some buf) :
    (wait_and_process cbs s k).2.completionCalled
        = (buf.has_file && cbs.on_complete_callback.isSome) ∧
    (wait_and_process cbs s k).2.passthroughCalled
        = (!buf.has_file && cbs.on_passthrough_callback.isSome) := by
  simp only [wait_and_process, h]
  cases buf.has_file
  · cases cbs.on_passthrough_callback <;> simp [noDispatch]
  · cases cbs.on_complete_callback <;> simp [noDispatch]

lemma fireTimer_cancelled_or_done (cbs : MBCallbacks) (s : MBState) (tid : Nat)
    (t : TimerTask) (hfind : s.timers.find? (fun u => u.id == tid) = some t)
    (h : (t.cancelled || t.done) = true) :
    fireTimer cbs s tid = (s, noDispatch) := by
  simp only [fireTimer, hfind, h, if_true]

lemma fireTimer_fires (cbs : MBCallbacks) (s : MBState) (tid : Nat)
    (t : TimerTask) (hfind : s.timers.find? (fun u => u.id == tid) = some t)
    (hc : t.cancelled = false) (hd : t.done = false) :
    fireTimer cbs s tid
      = wait_and_process cbs { s with timers := markDone s.timers tid } t.key := by
  simp only [fireTimer, hfind, hc, hd]
  simp

lemma cancel_buffer_absent (s : MBState) (e : Event)
    (h : lookupKey (get_buffer_key e) s.buffers = none) :
    cancel_buffer s e = s := by
  simp only [cancel_buffer, h]

lemma cancel_buffer_present (s : MBState) (e : Event) (buf : BufferedMessage)
    (h : lookupKey (get_buffer_key e) s.buffers = some buf) :
    cancel_buffer s e =
      { s with buffers := eraseKey (get_buffer_key e) s.buffers,
               timers := match buf.timer_task with
                         | some tid => cancelTimerId s.timers tid
                         | none => s.timers } := by
  simp only [cancel_buffer, h]

lemma wait_and_process_buffers_subset (cbs : MBCallbacks) (s : MBState) (k : BKey) :
    ∀ p ∈ (wait_and_process cbs s k).1.buffers, p ∈ s.buffers := by
  intro p hp
  cases hb : lookupKey k s.buffers with
  | none => rw [wait_and_process_absent cbs s k hb] at hp; exact hp
  | some buf =>
      rw [wait_and_process_pop cbs s k buf hb] at hp
      exact mem_eraseKey hp

lemma fireTimer_buffers_subset (cbs : MBCallbacks) (s : MBState) (tid : Nat) :
    ∀ p ∈ (fireTimer cbs s tid).1.buffers, p ∈ s.buffers := by
  intro p hp
  cases hfind : s.timers.find? (fun u => u.id == tid) with
  | none => simp only [fireTimer, hfind] at hp; exact hp
  | some t =>
      by_cases hcd : (t.cancelled || t.done) = true
      · rw [fireTimer_cancelled_or_done cbs s tid t hfind hcd] at hp
        exact hp
      · have hc : t.cancelled = false := by
          rcases Bool.or_eq_false_iff.mp (Bool.eq_false_iff.mpr hcd) with ⟨h1, _⟩
          exact h1
        have hd : t.done = false := by
          rcases Bool.or_eq_false_iff.mp (Bool.eq_false_iff.mpr hcd) with ⟨_, h2⟩
          exact h2
        rw [fireTimer_fires cbs s tid t hfind hc hd] at hp
        exact wait_and_process_buffers_subset cbs
          { s with timers := markDone s.timers tid } t.key p hp

lemma cancel_buffer_buffers_subset (s : MBState) (e : Event) :
    ∀ p ∈ (cancel_buffer s e).buffers, p ∈ s.buffers := by
  intro p hp
  cases hb : lookupKey (get_buffer_key e) s.buffers with
  | none => rw [cancel_buffer_absent s e hb] at hp; exact hp
  | some buf =>
      rw [cancel_buffer_present s e buf hb] at hp
      exact mem_eraseKey hp

lemma flagInv_add (cfg : MBConfig) (s : MBState) (e : Event)
    (h : ∀ p ∈ s.buffers, p.2.extended = p.2.has_file) :
    ∀ p ∈ (add_message cfg s e).1.buffers, p.2.extended = p.2.has_file := by
  intro p hp
  by_cases hdis : cfg.observe_seconds ≤ 0 ∧ cfg.wait_seconds ≤ 0
  · rw [add_message_disabled cfg s e hdis] at hp
    exact h p hp
  · cases hb : lookupKey (get_buffer_key e) s.buffers with
    | none =>
        rw [add_message_new cfg s e hdis hb] at hp
        rcases List.mem_cons.mp hp with h1 | h1
        · rw [h1]
        · exact h p h1
    | some buf =>
        by_cases hcond : (decide ((extract_components e).1.length > 0) && !buf.extended) = true
        · obtain ⟨hf', hx'⟩ := Bool.and_eq_true_iff.mp hcond
          have hf : (extract_components e).1 ≠ [] := by
            have := of_decide_eq_true hf'
            exact List.ne_nil_of_length_pos this
          have hx : buf.extended = false := by
            simpa using hx'
          rw [add_message_escalate cfg s e buf hdis hb hf hx] at hp
          rcases mem_updateKey hp with h1 | h1
          · rw [h1]
          · exact h p h1
        · rw [add_message_append cfg s e buf hdis hb (Bool.eq_false_iff.mpr hcond)] at hp
          rcases mem_updateKey hp with h1 | h1
          · rw [h1]
            exact h _ (lookupKey_mem hb)
          · exact h p h1

lemma add_message_appends (cfg : MBConfig) (s : MBState) (e : Event)
    (buf : BufferedMessage)
    (hdis : ¬(cfg.observe_seconds ≤ 0 ∧ cfg.wait_seconds ≤ 0))
    (hb : lookupKey (get_buffer_key e) s.buffers = some buf) :
    ∃ buf', lookupKey (get_buffer_key e) ((add_message cfg s e).1).buffers = some buf' ∧
      buf'.files = buf.files ++ (extract_components e).1 ∧
      buf'.texts = buf.texts ++ (extract_components e).2 := by
  by_cases hcond : (decide ((extract_components e).1.length > 0) && !buf.extended) = true
  · obtain ⟨hf', hx'⟩ := Bool.and_eq_true_iff.mp hcond
    have hf : (extract_components e).1 ≠ [] :=
      List.ne_nil_of_length_pos (of_decide_eq_true hf')
    have hx : buf.extended = false := by simpa using hx'
    rw [add_message_escalate cfg s e buf hdis hb hf hx]
    exact ⟨_, lookupKey_updateKey _ hb, rfl, rfl⟩
  · rw [add_message_append cfg s e buf hdis hb (Bool.eq_false_iff.mpr hcond)]
    exact ⟨_, lookupKey_updateKey _ hb, rfl, rfl⟩

lemma add_all_concat (cfg : MBConfig) (k : BKey)
    (hdis : ¬(cfg.observe_seconds ≤ 0 ∧ cfg.wait_seconds ≤ 0)) :
    ∀ (es : List Event) (s : MBState) (buf : BufferedMessage),
      (∀ x ∈ es, get_buffer_key x = k) →
      lookupKey k s.buffers = some buf →
      ∃ buf', lookupKey k (add_all cfg s es).buffers = some buf' ∧
        buf'.files = buf.files ++ (es.map (fun x => (extract_components x).1)).flatten ∧
        buf'.texts = buf.texts ++ (es.map (fun x => (extract_components x).2)).flatten := by
  intro es
  induction es with
  | nil =>
      intro s buf _ hb
      exact ⟨buf, by simpa [add_all] using hb, by simp, by simp⟩
  | cons e rest ih =>
      intro s buf hk hb
      have hke : get_buffer_key e = k := hk e (List.mem_cons_self _ _)
      obtain ⟨buf1, hl1, hf1, ht1⟩ :=
        add_message_appends cfg s e buf hdis (by rwa [hke])
      rw [hke] at hl1
      obtain ⟨buf', hl', hf', ht'⟩ :=
        ih ((add_message cfg s e).1) buf1
          (fun x hx => hk x (List.mem_cons_of_mem _ hx)) hl1
      refine ⟨buf', ?_, ?_, ?_⟩
      · simpa [add_all] using hl'
      · rw [hf', hf1]
        simp [List.append_assoc]
      · rw [ht', ht1]
        simp [List.append_assoc]

lemma resubmissions_le (files : List FileComp) (texts : List String) :
    ∀ (n : Nat) (e : Event),
      resubmissions files texts n e ≤ 3 - e.buffer_reentry_count := by
  intro n
  induction n with
  | zero => intro e; simp [resubmissions]
  | succ n ih =>
      intro e
      by_cases h : 3 ≤ e.buffer_reentry_count
      · have hr : recycleOnce files texts e = (e, false) := by
          simp [recycleOnce, on_buffer_complete, h]
        simpa [resubmissions, hr] using ih e
      · have hr2 : (recycleOnce files texts e).2 = true := by
          simp [recycleOnce, on_buffer_complete, h]
        have hr1 : (recycleOnce files texts e).1.buffer_reentry_count
            = e.buffer_reentry_count + 1 := by
          simp [recycleOnce, on_buffer_complete, h]
        have hrec := ih (recycleOnce files texts e).1
        rw [hr1] at hrec
        have hlt : e.buffer_reentry_count < 3 := Nat.lt_of_not_le h
        simp only [resubmissions, hr2, if_true]
        omega

/-- Example configuration: `wait_seconds=4` (the plugin default), a 1-second
observation window. -/
def exCfg : MBConfig := { wait_seconds := 4, observe_seconds := 1 }

/-- Example file attachment. -/
def exFile : FileComp := { name := some "report.docx" }

/-- Example conversation key. -/
def exKey : BKey := ("aiocqhttp", "10001", "qq:FriendMessage:10001")

/-- Example incoming event carrying one file. -/
def exEventFile : Event :=
  { platform_id := some "aiocqhttp", sender_id := some "10001",
    unified_msg_origin := some "qq:FriendMessage:10001",
    message := [MessageComponent.file exFile],
    raw_message := "", message_str := "", is_wake := false,
    is_at_or_wake_command := false, buffered := false,
    buffer_reentry_count := 0, result := none }

/-- Example incoming event carrying only plain text. -/
def exEventText : Event :=
  { exEventFile with message := [MessageComponent.plain "summarize this"] }

/-- Example callbacks: a completion callback that succeeds, no passthrough. -/
def exCbs : MBCallbacks :=
  { on_complete_callback := some fun _ => Except.ok ()
    on_passthrough_callback := none }

/-- Example extended entry (a file already arrived) with a pending timer 0. -/
def exEntry : BufferedMessage :=
  { event := exEventFile, files := [exFile], texts := [],
    timer_task := some 0, has_file := true, extended := true }

/-- Example pending full-window timer task with id 0. -/
def exTimer : TimerTask :=
  { id := 0, key := exKey, duration := 4, cancelled := false, done := false }

/-- Example buffer state holding the extended entry and its pending timer. -/
def exState : MBState :=
  { buffers := [(exKey, exEntry)], timers := [exTimer], nextId := 1 }

/-- Example observation-phase entry (text only, not yet extended). -/
def exEntryText : BufferedMessage :=
  { event := exEventText, files := [], texts := ["summarize this"],
    timer_task := some 0, has_file := false, extended := false }

/-- Example pending observation-window timer task with id 0. -/
def exTimerObs : TimerTask :=
  { id := 0, key := exKey, duration := 1, cancelled := false, done := false }

/-- Example buffer state in the observation phase. -/
def exStateText : MBState :=
  { buffers := [(exKey, exEntryText)], timers := [exTimerObs], nextId := 1 }

/-- C1: when a timer task expires without having been cancelled and its entry
is still registered, `_wait_and_process` removes the entry from the registry
and dispatches exactly one branch: the completion callback exactly when the
flag `has_file` of the entry is set (and the callback is registered), otherwise the
passthrough callback (when registered); the two callbacks never both fire in
one cycle, and a zero-dispatch cycle can only come from the selected callback
being unset. -/
theorem spec_c1_single_dispatch (cbs : MBCallbacks) (s : MBState) (tid : Nat)
    (t : TimerTask) (buf : BufferedMessage)
    (hfind : s.timers.find? (fun u => u.id == tid) = some t)
    (hc : t.cancelled = false) (hd : t.done = false)
    (hbuf : lookupKey t.key s.buffers = some buf) :
    (fireTimer cbs s tid).1.buffers = eraseKey t.key s.buffers ∧
    (fireTimer cbs s tid).2.completionCalled
        = (buf.has_file && cbs.on_complete_callback.isSome) ∧
    (fireTimer cbs s tid).2.passthroughCalled
        = (!buf.has_file && cbs.on_passthrough_callback.isSome) ∧
    ¬((fireTimer cbs s tid).2.completionCalled = true ∧
      (fireTimer cbs s tid).2.passthroughCalled = true) := by
  rw [fireTimer_fires cbs s tid t hfind hc hd]
  have hbuf' : lookupKey t.key
      (MBState.mk s.buffers (markDone s.timers tid) s.nextId).buffers = some buf := hbuf
  obtain ⟨h1, h2⟩ := wait_and_process_calls cbs _ t.key buf hbuf'
  refine ⟨?_, h1, h2, ?_⟩
  · rw [wait_and_process_pop cbs _ t.key buf hbuf']
  · rw [h1, h2]
    rintro ⟨ha, hb2⟩
    cases hbf : buf.has_file
    · rw [hbf] at ha
      simp at ha
    · rw [hbf] at hb2
      simp at hb2

/-- Witness for C1 at a concrete state: an extended entry with a pending
timer, a registered completion callback and no passthrough callback. -/
theorem spec_c1_witness :
    (fireTimer exCbs exState 0).1.buffers = eraseKey exTimer.key exState.buffers ∧
    (fireTimer exCbs exState 0).2.completionCalled
        = (exEntry.has_file && exCbs.on_complete_callback.isSome) ∧
    (fireTimer exCbs exState 0).2.passthroughCalled
        = (!exEntry.has_file && exCbs.on_passthrough_callback.isSome) ∧
    ¬((fireTimer exCbs exState 0).2.completionCalled = true ∧
      (fireTimer exCbs exState 0).2.passthroughCalled = true) :=
  spec_c1_single_dispatch exCbs exState 0 exTimer exEntry rfl rfl rfl rfl

/-- C2: `add_message` on a key with a live, not-yet-extended entry, when the
incoming message carries at least one file: the previous (pending) timer task
is cancelled, the extracted files and texts are appended, a fresh timer of
duration `wait_seconds` is armed, `has_file` and `extended` become true, and
the call returns true. -/
theorem spec_c2_escalation (cfg : MBConfig) (s : MBState) (e : Event)
    (buf : BufferedMessage) (tid : Nat) (t : TimerTask)
    (hdis : ¬(cfg.observe_seconds ≤ 0 ∧ cfg.wait_seconds ≤ 0))
    (hb : lookupKey (get_buffer_key e) s.buffers = some buf)
    (hx : buf.extended = false)
    (hf : (extract_components e).1 ≠ [])
    (htid : buf.timer_task = some tid)
    (hfind : s.timers.find? (fun u => u.id == tid) = some t)
    (hd : t.done = false) :
    add_message cfg s e =
      ({ buffers := updateKey (get_buffer_key e)
           { buf with files := buf.files ++ (extract_components e).1,
                      texts := buf.texts ++ (extract_components e).2,
                      has_file := true, extended := true,
                      timer_task := some s.nextId } s.buffers,
         timers := cancelTimerId s.timers tid ++
           [{ id := s.nextId, key := get_buffer_key e,
              duration := cfg.wait_seconds, cancelled := false, done := false }],
         nextId := s.nextId + 1 }, true) ∧
    (add_message cfg s e).1.timers.find? (fun u => u.id == tid)
        = some { t with cancelled := true } := by
  have heq := add_message_escalate cfg s e buf hdis hb hf hx
  simp only [htid] at heq
  refine ⟨heq, ?_⟩
  rw [heq]
  exact find?_append_some _ (find?_cancelTimerId hfind hd)

/-- Witness for C2: a text-only observation-phase buffer receives a file. -/
theorem spec_c2_witness :
    add_message exCfg exStateText exEventFile =
      ({ buffers := updateKey (get_buffer_key exEventFile)
           { exEntryText with
               files := exEntryText.files ++ (extract_components exEventFile).1,
               texts := exEntryText.texts ++ (extract_components exEventFile).2,
               has_file := true, extended := true,
               timer_task := some exStateText.nextId } exStateText.buffers,
         timers := cancelTimerId exStateText.timers 0 ++
           [{ id := exStateText.nextId, key := get_buffer_key exEventFile,
              duration := exCfg.wait_seconds, cancelled := false, done := false }],
         nextId := exStateText.nextId + 1 }, true) ∧
    (add_message exCfg exStateText exEventFile).1.timers.find? (fun u => u.id == 0)
        = some { exTimerObs with cancelled := true } :=
  spec_c2_escalation exCfg exStateText exEventFile exEntryText 0 exTimerObs
    (by decide) rfl rfl (by decide) rfl rfl rfl

/-- C3: `add_message` on a key whose entry is already extended only appends
the extracted files and texts and returns true; the rest of the state — in
particular the timer list and the field `timer_task` of the entry — is untouched,
whether or not the new message carries files. -/
theorem spec_c3_no_rearm (cfg : MBConfig) (s : MBState) (e : Event)
    (buf : BufferedMessage)
    (hdis : ¬(cfg.observe_seconds ≤ 0 ∧ cfg.wait_seconds ≤ 0))
    (hb : lookupKey (get_buffer_key e) s.buffers = some buf)
    (hx : buf.extended = true) :
    add_message cfg s e =
      ({ s with buffers := updateKey (get_buffer_key e)
                  { buf with files := buf.files ++ (extract_components e).1,
                             texts := buf.texts ++ (extract_components e).2 }
                  s.buffers }, true) := by
  apply add_message_append cfg s e buf hdis hb
  simp [hx]

/-- Witness for C3: a second file arrives while the full window is active. -/
theorem spec_c3_witness :
    add_message exCfg exState exEventFile =
      ({ exState with
           buffers := updateKey (get_buffer_key exEventFile)
             { exEntry with
                 files := exEntry.files ++ (extract_components exEventFile).1,
                 texts := exEntry.texts ++ (extract_components exEventFile).2 }
             exState.buffers }, true) :=
  spec_c3_no_rearm exCfg exState exEventFile exEntry (by decide) rfl rfl

/-- C4: with both windows configured to zero, `add_message` returns false and
leaves the state untouched — no extraction, no registry mutation, no timer. -/
theorem spec_c4_disabled (cfg : MBConfig) (s : MBState) (e : Event)
    (h1 : cfg.observe_seconds = 0) (h2 : cfg.wait_seconds = 0) :
    add_message cfg s e = (s, false) :=
  add_message_disabled cfg s e (by rw [h1, h2]; exact ⟨le_refl 0, le_refl 0⟩)

/-- Witness for C4: the disabled configuration on a file-carrying event. -/
theorem spec_c4_witness :
    add_message { wait_seconds := 0, observe_seconds := 0 } initState exEventFile
      = (initState, false) :=
  spec_c4_disabled { wait_seconds := 0, observe_seconds := 0 } initState
    exEventFile rfl rfl

/-- C5: `cancel_buffer` on a key with a live entry and a pending timer removes
the entry from the registry and cancels the timer task; the coroutine of the
cancelled timer then exits silently (no pop, no callback, state untouched), and even
the post-sleep body run on the cancelled state dispatches nothing because the
key is gone.  On a key with no entry, `cancel_buffer` is a no-op. -/
theorem spec_c5_cancellation (cbs : MBCallbacks) (s : MBState) (e : Event) :
    (∀ (buf : BufferedMessage) (tid : Nat) (t : TimerTask),
        lookupKey (get_buffer_key e) s.buffers = some buf →
        buf.timer_task = some tid →
        s.timers.find? (fun u => u.id == tid) = some t →
        t.done = false →
        lookupKey (get_buffer_key e) (cancel_buffer s e).buffers = none ∧
        (cancel_buffer s e).timers.find? (fun u => u.id == tid)
            = some { t with cancelled := true } ∧
        fireTimer cbs (cancel_buffer s e) tid = (cancel_buffer s e, noDispatch) ∧
        wait_and_process cbs (cancel_buffer s e) (get_buffer_key e)
            = (cancel_buffer s e, noDispatch)) ∧
    (lookupKey (get_buffer_key e) s.buffers = none → cancel_buffer s e = s) := by
  constructor
  · intro buf tid t hb htid hfind hd
    have hcb := cancel_buffer_present s e buf hb
    simp only [htid] at hcb
    have h1 : lookupKey (get_buffer_key e) (cancel_buffer s e).buffers = none := by
      rw [hcb]
      exact lookupKey_eraseKey _ _
    have h2 : (cancel_buffer s e).timers.find? (fun u => u.id == tid)
        = some { t with cancelled := true } := by
      rw [hcb]
      exact find?_cancelTimerId hfind hd
    refine ⟨h1, h2, ?_, ?_⟩
    · exact fireTimer_cancelled_or_done cbs _ tid { t with cancelled := true } h2
        (by simp)
    · exact wait_and_process_absent cbs _ _ h1
  · exact cancel_buffer_absent s e

/-- Witness for C5: cancelling the extended example buffer mid-window, plus the
no-op case on an empty registry. -/
theorem spec_c5_witness :
    (lookupKey (get_buffer_key exEventFile)
        (cancel_buffer exState exEventFile).buffers = none ∧
     (cancel_buffer exState exEventFile).timers.find? (fun u => u.id == 0)
         = some { exTimer with cancelled := true } ∧
     fireTimer exCbs (cancel_buffer exState exEventFile) 0
         = (cancel_buffer exState exEventFile, noDispatch) ∧
     wait_and_process exCbs (cancel_buffer exState exEventFile)
         (get_buffer_key exEventFile)
         = (cancel_buffer exState exEventFile, noDispatch)) ∧
    cancel_buffer initState exEventFile = initState :=
  ⟨(spec_c5_cancellation exCbs exState exEventFile).1 exEntry 0 exTimer
      rfl rfl rfl rfl,
   (spec_c5_cancellation exCbs initState exEventFile).2 rfl⟩

/-- C6: within one buffering window, every `add_message` call appends the
extracted files and texts at the end of the lists of the entry, and a sequence of
messages for one key accumulates exactly the concatenation, in arrival order,
of the per-message extracted file lists and text lists. -/
theorem spec_c6_ordering (cfg : MBConfig) (k : BKey)
    (hdis : ¬(cfg.observe_seconds ≤ 0 ∧ cfg.wait_seconds ≤ 0)) :
    (∀ (s : MBState) (e : Event) (buf : BufferedMessage),
        get_buffer_key e = k →
        lookupKey k s.buffers = some buf →
        ∃ buf', lookupKey k ((add_message cfg s e).1).buffers = some buf' ∧
          buf'.files = buf.files ++ (extract_components e).1 ∧
          buf'.texts = buf.texts ++ (extract_components e).2) ∧
    (∀ (e : Event) (es : List Event) (s : MBState),
        (∀ x ∈ e :: es, get_buffer_key x = k) →
        lookupKey k s.buffers = none →
        ∃ buf', lookupKey k (add_all cfg s (e :: es)).buffers = some buf' ∧
          buf'.files = ((e :: es).map (fun x => (extract_components x).1)).flatten ∧
          buf'.texts = ((e :: es).map (fun x => (extract_components x).2)).flatten) := by
  constructor
  · intro s e buf hke hb
    obtain ⟨buf', h1, h2, h3⟩ := add_message_appends cfg s e buf hdis (by rwa [hke])
    rw [hke] at h1
    exact ⟨buf', h1, h2, h3⟩
  · intro e es s hk hnone
    have hke : get_buffer_key e = k := hk e (List.mem_cons_self _ _)
    have hnew := add_message_new cfg s e hdis (by rwa [hke])
    have hb1 : lookupKey k ((add_message cfg s e).1).buffers
        = some { event := e, files := (extract_components e).1,
                 texts := (extract_components e).2, timer_task := some s.nextId,
                 has_file := decide ((extract_components e).1.length > 0),
                 extended := decide ((extract_components e).1.length > 0) } := by
      rw [hnew]
      simp [hke]
    obtain ⟨buf', h1, h2, h3⟩ :=
      add_all_concat cfg k hdis es ((add_message cfg s e).1) _
        (fun x hx => hk x (List.mem_cons_of_mem _ hx)) hb1
    refine ⟨buf', ?_, ?_, ?_⟩
    · simpa [add_all] using h1
    · rw [h2]
      simp
    · rw [h3]
      simp

/-- Witness for C6: a text message followed by a file message on one key,
starting from the empty registry. -/
theorem spec_c6_witness :
    ∃ buf', lookupKey exKey
        (add_all exCfg initState [exEventText, exEventFile]).buffers = some buf' ∧
      buf'.files = (([exEventText, exEventFile]).map
        (fun x => (extract_components x).1)).flatten ∧
      buf'.texts = (([exEventText, exEventFile]).map
        (fun x => (extract_components x).2)).flatten :=
  (spec_c6_ordering exCfg exKey (by decide)).2 exEventText [exEventFile]
    initState (by decide) rfl

/-- C7: the reentry counter bounds recycling by the constant 3: the completion
handler refuses to resubmit once the counter has reached 3, every successful
resubmission increments the counter by exactly one, and over any number of
recycling trips an event starting at counter 0 is resubmitted at most 3
times. -/
theorem spec_c7_reentry_bound :
    (∀ buf : BufferedMessage, 3 ≤ buf.event.buffer_reentry_count →
        (on_buffer_complete buf).2 = false) ∧
    (∀ buf : BufferedMessage, (on_buffer_complete buf).2 = true →
        (on_buffer_complete buf).1.buffer_reentry_count
          = buf.event.buffer_reentry_count + 1) ∧
    (∀ (files : List FileComp) (texts : List String) (n : Nat) (e : Event),
        e.buffer_reentry_count = 0 → resubmissions files texts n e ≤ 3) := by
  refine ⟨?_, ?_, ?_⟩
  · intro buf h
    simp [on_buffer_complete, h]
  · intro buf h
    by_cases hge : 3 ≤ buf.event.buffer_reentry_count
    · simp [on_buffer_complete, hge] at h
    · simp [on_buffer_complete, hge]
  · intro files texts n e h0
    have hb := resubmissions_le files texts n e
    rw [h0] at hb
    simpa using hb

/-- Witness for C7: the guard refuses at counter 3, and five recycling trips
from counter 0 yield at most 3 resubmissions. -/
theorem spec_c7_witness :
    (on_buffer_complete { exEntry with
        event := { exEventFile with buffer_reentry_count := 3 } }).2 = false ∧
    resubmissions [exFile] [] 5 exEventFile ≤ 3 :=
  ⟨spec_c7_reentry_bound.1
      { exEntry with event := { exEventFile with buffer_reentry_count := 3 } }
      (by decide),
   spec_c7_reentry_bound.2.2 [exFile] [] 5 exEventFile rfl⟩

/-- C8: the registry is unaffected by callback failure: for any callbacks —
including ones that raise — the post-sleep body pops the entry before the
dispatch, so afterwards the key is absent, and the resulting state does not
depend on the outcome of the callbacks at all (the exception is caught at the
dispatch boundary and only recorded in the log). -/
theorem spec_c8_callback_failure (s : MBState) (k : BKey) (buf : BufferedMessage)
    (h : lookupKey k s.buffers = some buf) :
    (∀ cbs : MBCallbacks,
        (wait_and_process cbs s k).1.buffers = eraseKey k s.buffers ∧
        lookupKey k (wait_and_process cbs s k).1.buffers = none) ∧
    (∀ cbs cbs' : MBCallbacks,
        (wait_and_process cbs s k).1 = (wait_and_process cbs' s k).1) := by
  constructor
  · intro cbs
    have hp := wait_and_process_pop cbs s k buf h
    constructor
    · rw [hp]
    · rw [hp]
      exact lookupKey_eraseKey _ _
  · intro cbs cbs'
    rw [wait_and_process_pop cbs s k buf h, wait_and_process_pop cbs' s k buf h]

/-- Example callbacks whose completion callback raises. -/
def exCbsErr : MBCallbacks :=
  { on_complete_callback := some fun _ => Except.error "simulated callback failure"
    on_passthrough_callback := none }

/-- Witness for C8: dispatching the example entry to a raising completion
callback still erases the key, and yields the same state as a succeeding
callback. -/
theorem spec_c8_witness :
    ((wait_and_process exCbsErr exState exKey).1.buffers
        = eraseKey exKey exState.buffers ∧
      lookupKey exKey (wait_and_process exCbsErr exState exKey).1.buffers = none) ∧
    (wait_and_process exCbsErr exState exKey).1
        = (wait_and_process exCbs exState exKey).1 :=
  ⟨(spec_c8_callback_failure exState exKey exEntry rfl).1 exCbsErr,
   (spec_c8_callback_failure exState exKey exEntry rfl).2 exCbsErr exCbs⟩

/-- C9: in every state reachable through `MessageBuffer` operations, every
registered entry has `extended = has_file`: creation seeds `extended` with
`has_file`, and the only mutation of either flag sets both to true. -/
theorem spec_c9_flags_equal (cfg : MBConfig) (cbs : MBCallbacks) (s : MBState)
    (h : Reachable cfg cbs s) :
    ∀ p ∈ s.buffers, p.2.extended = p.2.has_file := by
  unfold Reachable at h
  induction h with
  | refl =>
      intro p hp
      simp [initState] at hp
  | tail hr step ih =>
      cases step with
      | add e => exact flagInv_add cfg _ e ih
      | fire tid =>
          intro p hp
          exact ih p (fireTimer_buffers_subset cbs _ tid p hp)
      | cancel e =>
          intro p hp
          exact ih p (cancel_buffer_buffers_subset _ e p hp)

/-- Witness for C9: the entry created by one `add_message` step from the
initial state satisfies the flag equality. -/
theorem spec_c9_witness : (exKey, exEntry).2.extended = (exKey, exEntry).2.has_file :=
  spec_c9_flags_equal exCfg exCbs (add_message exCfg initState exEventFile).1
    (Relation.ReflTransGen.single (MBStep.add initState exEventFile))
    (exKey, exEntry) (by decide)

/-- C10: when the completion handler sees a reentry counter of 3 or more, it
returns before any mutation: the message chain of the event, raw message, display
string, wake flags, `_buffered` marker and counter are unchanged, the returned
event is the input event, and nothing is put back on the host queue. -/
theorem spec_c10_guard_frame (buf : BufferedMessage)
    (h : 3 ≤ buf.event.buffer_reentry_count) :
    (on_buffer_complete buf).1.message = buf.event.message ∧
    (on_buffer_complete buf).1.raw_message = buf.event.raw_message ∧
    (on_buffer_complete buf).1.message_str = buf.event.message_str ∧
    (on_buffer_complete buf).1.is_wake = buf.event.is_wake ∧
    (on_buffer_complete buf).1.is_at_or_wake_command
        = buf.event.is_at_or_wake_command ∧
    (on_buffer_complete buf).1.buffered = buf.event.buffered ∧
    (on_buffer_complete buf).1.buffer_reentry_count
        = buf.event.buffer_reentry_count ∧
    (on_buffer_complete buf).1 = buf.event ∧
    (on_buffer_complete buf).2 = false := by
  have heq : on_buffer_complete buf = (buf.event, false) := by
    simp [on_buffer_complete, h]
  rw [heq]
  exact ⟨rfl, rfl, rfl, rfl, rfl, rfl, rfl, rfl, rfl⟩

/-- Witness for C10: a buffered message whose event already carries reentry
counter 3 is returned unchanged and not resubmitted. -/
theorem spec_c10_witness :
    (on_buffer_complete { exEntry with
        event := { exEventFile with buffer_reentry_count := 3 } }).1
      = { exEventFile with buffer_reentry_count := 3 } ∧
    (on_buffer_complete { exEntry with
        event := { exEventFile with buffer_reentry_count := 3 } }).2 = false := by
  have h := spec_c10_guard_frame
    { exEntry with event := { exEventFile with buffer_reentry_count := 3 } }
    (by decide)
  exact ⟨h.2.2.2.2.2.2.2.1, h.2.2.2.2.2.2.2.2⟩
